import Mathlib

/-!
# Verification of the adalink Programmer / command-scripting engine

Shallow embedding of the adalink command-scripting, process-running and
output-parsing layer (`adalink/programmers/jlink.py`, the SAMD21 OpenOCD
programmer subclasses in `adalink/cores/samd21.py` and
`adalink/cores/atsamd21g18.py`, the dispatch callback in `adalink/core.py`
and the entry point in `adalink/main.py`).

Python strings are modelled as Lean `String`/`List Char`; Python `int` as
`ℤ`/`ℕ`; Python floats (the JLink reference voltage, whose decimal text is
exact) as `ℚ`; fallible Python code as `Except PyExc`.  Environment
functions the code calls (`os.path.abspath`, the inherited
`STLink.escape_path`) appear as explicit function parameters of the
builders, exactly where the source calls them.
-/

namespace Adalink

/-! ## Python exception model

The exception classes that appear in the modelled code, with the class
hierarchy of CPython (relevant fact: `subprocess.TimeoutExpired` derives
from `SubprocessError`, not from the builtin `TimeoutError`, which derives
from `OSError`). -/

inductive PyClass where
  | exceptionCls
  | osErrorCls
  | timeoutErrorCls
  | subprocessErrorCls
  | timeoutExpiredCls
  | adaLinkErrorCls
  | typeErrorCls
  | valueErrorCls
  deriving DecidableEq, Repr

/-- The strict ancestor chain (the class itself included) of each class,
    as in CPython's method resolution order. -/
def PyClass.ancestors : PyClass → List PyClass
  | .exceptionCls => [.exceptionCls]
  | .osErrorCls => [.osErrorCls, .exceptionCls]
  | .timeoutErrorCls => [.timeoutErrorCls, .osErrorCls, .exceptionCls]
  | .subprocessErrorCls => [.subprocessErrorCls, .exceptionCls]
  | .timeoutExpiredCls => [.timeoutExpiredCls, .subprocessErrorCls, .exceptionCls]
  | .adaLinkErrorCls => [.adaLinkErrorCls, .exceptionCls]
  | .typeErrorCls => [.typeErrorCls, .exceptionCls]
  | .valueErrorCls => [.valueErrorCls, .exceptionCls]

/-- `isSubclassOf c d` holds iff an `except d:` clause catches an
    exception of class `c`. -/
def PyClass.isSubclassOf (c d : PyClass) : Bool :=
  d ∈ c.ancestors

/-- Exception values raised by the modelled code. -/
inductive PyExc where
  | typeError
  | valueError
  | timeoutExpired
  | adaLinkError (msg : String)
  deriving DecidableEq, Repr

def PyExc.classOf : PyExc → PyClass
  | .typeError => .typeErrorCls
  | .valueError => .valueErrorCls
  | .timeoutExpired => .timeoutExpiredCls
  | .adaLinkError _ => .adaLinkErrorCls

instance {e a : Type} [DecidableEq e] [DecidableEq a] : DecidableEq (Except e a) := fun x y =>
  match x, y with
  | .ok u, .ok w =>
    if h : u = w then isTrue (by rw [h]) else isFalse (fun hc => h (Except.ok.inj hc))
  | .error u, .error w =>
    if h : u = w then isTrue (by rw [h]) else isFalse (fun hc => h (Except.error.inj hc))
  | .ok _, .error _ => isFalse (fun hc => Except.noConfusion hc)
  | .error _, .ok _ => isFalse (fun hc => Except.noConfusion hc)

/-! ## String utilities (models of the Python string operations used) -/

/-- `listIsPrefix p l` : `p` is a prefix of `l` (character lists). -/
def listIsPrefix : List Char → List Char → Bool
  | [], _ => true
  | _ :: _, [] => false
  | a :: p, b :: l => a == b && listIsPrefix p l

/-- Model of Python `s.startswith(pre)`. -/
def pyStartswith (s pre : String) : Bool :=
  listIsPrefix pre.data s.data

/-- Scan of `pat` against every suffix of `l`. -/
def listHasInfix (pat : List Char) : List Char → Bool
  | [] => listIsPrefix pat []
  | c :: rest => listIsPrefix pat (c :: rest) || listHasInfix pat rest

/-- Model of Python `pat in s` (substring containment). -/
def pyIn (pat s : String) : Bool :=
  listHasInfix pat.data s.data

/-- Split a character list at newline characters; the resulting segments
    are exactly the `^`-anchor segments of `re.MULTILINE`. -/
def splitNl : List Char → List (List Char)
  | [] => [[]]
  | c :: r =>
    if c = '\n' then [] :: splitNl r
    else
      match splitNl r with
      | [] => [[c]]
      | h :: t => (c :: h) :: t

/-- Model of Python `s.splitlines()` for `'\n'`-separated text (the other
    Unicode line separators recognised by `splitlines` do not occur in the
    modelled tool output): a trailing newline does not produce a final
    empty line. -/
def pySplitlines (s : String) : List String :=
  let parts := splitNl s.data
  let parts := if parts.getLast? = some [] then parts.dropLast else parts
  parts.map (fun l => ⟨l⟩)

/-! ## Python `len` and `filter`

In Python 3 `filter(...)` returns a lazy iterator without `__len__`;
calling `len` on it raises `TypeError`.  `py_len` embeds exactly this
dispatch. -/

inductive PyVal where
  | list (l : List String)
  | filterObj (pred : String → Bool) (l : List String)

/-- Model of the Python builtin `len`: defined for `list`, a `TypeError`
    for a `filter` object (no `__len__`). -/
def py_len : PyVal → Except PyExc Nat
  | .list l => .ok l.length
  | .filterObj _ _ => .error .typeError

/-! ## Hexadecimal formatting and parsing -/

/-- The uppercase hex digit character for `d < 16`, as produced by
    Python's `X` format code. -/
def hexChar (d : Nat) : Char :=
  if d < 10 then Char.ofNat (48 + d) else Char.ofNat (55 + d)

/-- The big-endian uppercase hex digit characters of `v` (`['0']` for 0),
    i.e. the text of Python `'{0:X}'.format(v)`. -/
def hexDigitsBE (v : Nat) : List Char :=
  if v = 0 then ['0'] else ((Nat.digits 16 v).reverse.map hexChar)

/-- Python `'{0:X}'.format(v)`. -/
def hexStr (v : Nat) : String :=
  ⟨hexDigitsBE v⟩

/-- Python `'{0:08X}'.format(a)`: uppercase hex, zero-padded on the left
    to at least 8 digits. -/
def fmtAddr8 (a : Nat) : String :=
  ⟨List.replicate (8 - (hexDigitsBE a).length) '0' ++ hexDigitsBE a⟩

/-- Numeric value of one hex digit character, both cases accepted, as in
    Python `int(c, 16)`. -/
def hexVal (c : Char) : Option Nat :=
  if '0' ≤ c ∧ c ≤ '9' then some (c.toNat - 48)
  else if 'a' ≤ c ∧ c ≤ 'f' then some (c.toNat - 87)
  else if 'A' ≤ c ∧ c ≤ 'F' then some (c.toNat - 55)
  else none

/-- Accumulating base-16 parse of a digit-character list. -/
def parseHexAux : List Char → Nat → Option Nat
  | [], acc => some acc
  | c :: rest, acc =>
    match hexVal c with
    | none => none
    | some d => parseHexAux rest (16 * acc + d)

/-- Strip one optional `0x`/`0X` prefix, accepted by Python `int(s, 16)`. -/
def strip0x (l : List Char) : List Char :=
  match l with
  | a :: b :: r => if a = '0' ∧ (b = 'x' ∨ b = 'X') then r else l
  | _ => l

/-- Parse a (sign-free) hex numeral as Python `int(s, 16)` does: an
    optional `0x` prefix then at least one hex digit. -/
def parseUnsignedHex (l : List Char) : Option Nat :=
  let core := strip0x l
  if core.isEmpty then none else parseHexAux core 0

/-- Model of Python `int(s, 16)`: optional sign, optional `0x` prefix,
    then hex digits; `none` models the `ValueError` raise.  (Underscore
    digit grouping and surrounding whitespace, which `int` also accepts,
    cannot occur in the whitespace-free regex tokens this is applied to
    and are not modelled.) -/
def pyIntHex (s : String) : Option Int :=
  match s.data with
  | [] => none
  | c :: r =>
    if c = '-' then (parseUnsignedHex r).map (fun n => -(n : Int))
    else if c = '+' then (parseUnsignedHex r).map (fun n => (n : Int))
    else (parseUnsignedHex (c :: r)).map (fun n => (n : Int))

/-! ## Decimal parsing for the voltage reading -/

/-- Python whitespace characters (the class `\s` / complement of `\S`). -/
def isPySpace (c : Char) : Bool :=
  c = ' ' || c = '\t' || c = '\n' || c = '\r' || c = '\x0b' || c = '\x0c'

/-- Value of a decimal digit run. -/
def decVal (l : List Char) : Nat :=
  l.foldl (fun a c => 10 * a + (c.toNat - 48)) 0

/-- Model of Python `float(s)` on a string of digits and dots (the only
    shape the voltage regex can capture): valid iff it has at most one dot
    and at least one digit; the decimal text is exact, so the value is
    represented in `ℚ`. -/
def pyFloatDigits (l : List Char) : Option ℚ :=
  if l.count '.' ≤ 1 ∧ l.any Char.isDigit then
    let ip := l.takeWhile (fun c => c ≠ '.')
    let fp := l.drop (ip.length + 1)
    some ((decVal ip : ℚ) + (decVal fp : ℚ) / (10 : ℚ) ^ fp.length)
  else none

/-! ## The voltage regex `VTref=([0-9.]+)V`

Since `'V'` is not in the class `[0-9.]`, a match at a given position
succeeds iff the maximal run of `[0-9.]` after `VTref=` is nonempty and is
immediately followed by `'V'`; backtracking cannot produce any other
match.  `re.search` tries every start position left to right. -/

/-- Attempt the voltage pattern at the head of `l`. -/
def voltAt (l : List Char) : Option (List Char) :=
  if listIsPrefix "VTref=".data l then
    let rest := l.drop 6
    let run := rest.takeWhile (fun c => c.isDigit || c = '.')
    if !run.isEmpty ∧ (rest.drop run.length).head? = some 'V' then some run
    else none
  else none

/-- Model of `re.search(r'VTref=([0-9.]+)V', output)`: first matching
    position, returning the captured group. -/
def findVolt : List Char → Option (List Char)
  | [] => none
  | c :: rest =>
    match voltAt (c :: rest) with
    | some r => some r
    | none => findVolt rest

/-! ## The register-read regex `^ADDR = (\S+)` (IGNORECASE | MULTILINE) -/

/-- ASCII-lowercase a character list (`re.IGNORECASE` folding for the
    ASCII-only patterns used here). -/
def lowerList (l : List Char) : List Char :=
  l.map Char.toLower

/-- Attempt `^PAT(\S+)` at the start of one line: `pat` is the literal
    part `ADDR = ` compared case-insensitively, the group is the maximal
    nonempty run of non-whitespace after it. -/
def matchLineTok (pat line : List Char) : Option (List Char) :=
  if listIsPrefix (lowerList pat) (lowerList line) then
    let tok := (line.drop pat.length).takeWhile (fun c => !isPySpace c)
    if tok.isEmpty then none else some tok
  else none

/-- First line (in `re.MULTILINE` `^`-segment order) matching the
    register-read pattern, returning the captured token. -/
def findTok (pat : List Char) : List (List Char) → Option (List Char)
  | [] => none
  | line :: rest =>
    match matchLineTok pat line with
    | some t => some t
    | none => findTok pat rest

/-! ## `JLink.run_filename` (`adalink/programmers/jlink.py` lines 91-110)

`process.communicate(timeout=timeout_sec)` waits for the child; when the
wall clock exceeds a non-`None` timeout it raises
`subprocess.TimeoutExpired` and (per the `subprocess` documentation) does
NOT kill the child.  The source wraps the call in
`try: ... except TimeoutError: raise AdaLinkError(...)`.  The model takes
the child's behaviour (its run time and its output) as parameters and
returns the call's outcome together with whether the child was
terminated by the call. -/

/-- Outcome of `Popen.communicate(timeout=t)` for a child that runs for
    `dur` seconds producing `out`: `timeout = none` disables the bound. -/
def communicate (timeout : Option ℚ) (dur : ℚ) (out : String) :
    Except PyExc String × Bool :=
  match timeout with
  | none => (.ok out, true)
  | some t => if dur ≤ t then (.ok out, true) else (.error .timeoutExpired, false)

/-- `JLink.run_filename`: run the child, then dispatch the source's
    `except TimeoutError:` clause against whatever was raised, using the
    real CPython class hierarchy. -/
def run_filename (timeout : Option ℚ) (dur : ℚ) (out : String) :
    Except PyExc String × Bool :=
  let r := communicate timeout dur out
  match r.1 with
  | .ok o => (.ok o, r.2)
  | .error e =>
    if e.classOf.isSubclassOf .timeoutErrorCls then
      (.error (.adaLinkError "JLink process exceeded timeout!"), r.2)
    else (.error e, r.2)

/-! ## `JLink.program` (`adalink/programmers/jlink.py` lines 180-201)

`abs` stands for `os.path.abspath`, an environment function. -/

/-- The command script `JLink.program` builds. -/
def jlink_program_commands (abs : String → String)
    (hex_files : List String) (bin_files : List (String × Nat)) : List String :=
  ["r"]
    ++ hex_files.map (fun f => "loadfile \"" ++ abs f ++ "\"")
    ++ bin_files.map (fun p => "loadbin \"" ++ abs p.1 ++ "\" 0x" ++ fmtAddr8 p.2)
    ++ ["r", "g", "q"]

/-- How JLinkExe reads the file argument of a `loadfile "..."` command:
    the text between the first pair of double quotes. -/
def loadfileArg (cmd : String) : Option String :=
  if pyStartswith cmd "loadfile \"" then
    let rest := cmd.data.drop 10
    some ⟨rest.takeWhile (fun c => c ≠ '\"')⟩
  else none

/-- How JLinkExe reads the file argument of a `loadbin "..." 0xADDR`
    command: the text between the first pair of double quotes. -/
def loadbinArg (cmd : String) : Option String :=
  if pyStartswith cmd "loadbin \"" then
    let rest := cmd.data.drop 9
    some ⟨rest.takeWhile (fun c => c ≠ '\"')⟩
  else none

/-! ## The OpenOCD `program` bodies
(`STLink_SAMD21.program`, `RasPi2_SAMD21.program` in
`adalink/cores/samd21.py`; `STLink_ATSAMD21G18.program`,
`RasPi2_ATSAMD21G18.program` in `adalink/cores/atsamd21g18.py` — the four
bodies are textually identical).

`esc` stands for the inherited `self.escape_path`, `abs` for
`os.path.abspath`; the source computes `esc (abs f)` for each file. -/

/-- The command script the OpenOCD `program` bodies build. -/
def stlink_program_commands (esc abs : String → String)
    (hex_files : List String) (bin_files : List (String × Nat)) : List String :=
  ["init", "reset init"]
    ++ hex_files.map (fun f => "load_image " ++ esc (abs f) ++ " 0 ihex")
    ++ bin_files.map (fun p =>
        "load_image " ++ esc (abs p.1) ++ " 0x" ++ fmtAddr8 p.2 ++ " bin")
    ++ hex_files.map (fun f => "verify_image " ++ esc (abs f) ++ " 0 ihex")
    ++ bin_files.map (fun p =>
        "verify_image " ++ esc (abs p.1) ++ " 0x" ++ fmtAddr8 p.2 ++ " bin")
    ++ ["reset run", "exit"]

/-- The verification step at the end of the OpenOCD `program` bodies:
    `verified = len(filter(lambda x: x.startswith('verified '), output.splitlines()))`
    followed by the count comparison.  `filter(...)` is a Python 3 filter
    object, so the `len` call is dispatched through `py_len`. -/
def stlink_verify_check (hex_files : List String) (bin_files : List (String × Nat))
    (output : String) : Except PyExc Unit :=
  match py_len (.filterObj (fun x => pyStartswith x "verified ") (pySplitlines output)) with
  | .error e => .error e
  | .ok verified =>
    if verified ≠ hex_files.length + bin_files.length then
      .error (.adaLinkError "Failed to verify all files were programmed!")
    else .ok ()

/-- The verified-line count the source's comment says it computes (used to
    state what the check was intended to compare). -/
def countVerifiedLines (output : String) : Nat :=
  (pySplitlines output).countP (fun x => pyStartswith x "verified ")

/-! ## `JLink._readmem` parsing (`adalink/programmers/jlink.py` 129-145) -/

/-- The script `_readmem` sends for a read command (`mem8`/`mem16`/`mem32`)
    at `address`. -/
def readmem_commands (command : String) (address : Nat) : List String :=
  [command ++ " " ++ fmtAddr8 address ++ " 1", "q"]

/-- Parsing of the captured output in `_readmem`: search for
    `^{addr} = (\S+)` (IGNORECASE, MULTILINE), then `int(group, 16)`;
    no match raises the source's `AdaLinkError`, an unparsable token
    raises `ValueError`. -/
def readmem_parse (address : Nat) (output : String) : Except PyExc Int :=
  let pat := (fmtAddr8 address).data ++ " = ".data
  match findTok pat (splitNl output.data) with
  | none => .error (.adaLinkError
      "Could not find expected memory value, are the JLink and board connected?")
  | some tok =>
    match pyIntHex ⟨tok⟩ with
    | none => .error .valueError
    | some v => .ok v

/-- `JLink.readmem8` (the width selects only the tool command sent; the
    parse is `_readmem`'s). -/
def readmem8 (address : Nat) (output : String) : Except PyExc Int :=
  readmem_parse address output

/-- `JLink.readmem16`. -/
def readmem16 (address : Nat) (output : String) : Except PyExc Int :=
  readmem_parse address output

/-- `JLink.readmem32`. -/
def readmem32 (address : Nat) (output : String) : Except PyExc Int :=
  readmem_parse address output

/-! ## `JLink.is_connected` (`adalink/programmers/jlink.py` 147-164) and
the caller's connect gate (`adalink/core.py` 53-55) -/

/-- `JLink.is_connected` on a captured `connect`/`q` output.
    `connected` is the constructor's target-description string. -/
def is_connected (connected output : String) : Except PyExc Bool :=
  if pyIn "FAILED" output then
    .error (.adaLinkError "Could not find a JLink programmer, is it connected?")
  else
    match findVolt output.data with
    | none => .error (.adaLinkError "JLink output lacks voltage information")
    | some tok =>
      match pyFloatDigits tok with
      | none => .error .valueError
      | some v =>
        if v < 1 then
          .error (.adaLinkError
            ("JLink reference voltage is " ++ (⟨tok⟩ : String) ++ "V, it the chip powered?"))
        else .ok (pyIn ("Found " ++ connected) output)

/-- `is_connected` composed with the caller's check in `Core._callback`:
    a `False` return becomes `AdaLinkError('Could not find {name}, ...')`. -/
def connect_classify (connected name output : String) : Except PyExc Unit :=
  match is_connected connected output with
  | .error e => .error e
  | .ok b =>
    if b then .ok ()
    else .error (.adaLinkError ("Could not find " ++ name ++ ", is it connected?"))

/-! ## `main` (`adalink/main.py` 56-63)

`args.func(args)` runs under `try: ... except AdaLinkError as e: print(e)`;
`main` then returns normally, so the interpreter exits with status 0.  An
exception of any other class propagates out of `main` and the interpreter
exits with status 1 after printing a traceback. -/

/-- Outcome of the `main` entry point, given the outcome of the dispatched
    core callback: the lines printed and the process exit status. -/
def main_handle (outcome : Except PyExc Unit) : List String × Nat :=
  match outcome with
  | .ok _ => ([], 0)
  | .error e =>
    if e.classOf.isSubclassOf .adaLinkErrorCls then
      match e with
      | .adaLinkError msg => ([msg], 0)
      | _ => ([], 1)
    else ([], 1)

/-! ## `Core._callback` (`adalink/core.py` 50-82) -/

/-- One side-effecting operation `_callback` performs on the programmer. -/
inductive Step where
  | connectCheck
  | wipeOp
  | programOp (hex_files : List String) (bin_files : List (String × Nat))
  | infoOp
  | readOp (width : Nat) (address : Nat)
  deriving DecidableEq, Repr

def Step.isRead : Step → Bool
  | .readOp _ _ => true
  | _ => false

/-- `Core._callback`, modelled as the ordered trace of operations executed
    on the programmer plus the outcome.  `isConn` is the value returned by
    `programmer.is_connected()`; the sub-operations themselves are taken
    to succeed (a failure inside one would propagate out of `_callback`
    and cut the trace short, which none of the stated properties rely
    on). -/
def callback_trace (name : String) (isConn wipe : Bool) (hex_files : List String)
    (bin_files : List (String × Nat)) (info : Bool)
    (read8 read16 read32 : Option Nat) : List Step × Except PyExc Unit :=
  if !isConn then
    ([Step.connectCheck],
     .error (.adaLinkError ("Could not find " ++ name ++ ", is it connected?")))
  else
    let t := [Step.connectCheck]
      ++ (if wipe then [Step.wipeOp] else [])
      ++ (if 0 < hex_files.length ∨ 0 < bin_files.length then
            [Step.programOp hex_files bin_files] else [])
      ++ (if info then [Step.infoOp] else [])
    let f := [read8, read16, read32].filterMap id
    if 1 < f.length then
      (t, .error (.adaLinkError "Only one read memory command can be specified at a time."))
    else
      let t := t ++ (match read8 with | some a => [Step.readOp 8 a] | none => [])
      let t := t ++ (match read16 with | some a => [Step.readOp 16 a] | none => [])
      let t := t ++ (match read32 with | some a => [Step.readOp 32 a] | none => [])
      (t, .ok ())

/-! ## Helper lemmas -/

theorem listIsPrefix_self_append (p l : List Char) : listIsPrefix p (p ++ l) = true := by
  induction p with
  | nil => rfl
  | cons a p ih => simp [listIsPrefix, ih]

theorem listIsPrefix_append_of_le (p q l : List Char) (h : p.length ≤ q.length) :
    listIsPrefix p (q ++ l) = listIsPrefix p q := by
  induction p generalizing q with
  | nil => rfl
  | cons a p ih =>
    cases q with
    | nil => simp at h
    | cons b q =>
      rw [List.cons_append]
      show (a == b && listIsPrefix p (q ++ l)) = (a == b && listIsPrefix p q)
      rw [ih q (by simpa using h)]

theorem string_head_of_append {a : String} {c : Char} {la : List Char}
    (ha : a.data = c :: la) (b : String) :
    (a ++ b).data = c :: (la ++ b.data) := by
  rw [String.data_append, ha, List.cons_append]

theorem string_append_ne_append {a b : String} {c d : Char} {la lb : List Char}
    (ha : a.data = c :: la) (hb : b.data = d :: lb) (hcd : c ≠ d) (r s : String) :
    a ++ r ≠ b ++ s := by
  intro h
  rw [String.ext_iff, string_head_of_append ha, string_head_of_append hb] at h
  exact hcd (List.head_eq_of_cons_eq h)

theorem string_ne_append {a b : String} {c d : Char} {la lb : List Char}
    (ha : a.data = c :: la) (hb : b.data = d :: lb) (hcd : c ≠ d) (s : String) :
    a ≠ b ++ s := by
  intro h
  rw [String.ext_iff, ha, string_head_of_append hb] at h
  exact hcd (List.head_eq_of_cons_eq h)

theorem splitNl_of_no_newline (l : List Char) (h : '\n' ∉ l) : splitNl l = [l] := by
  induction l with
  | nil => rfl
  | cons c r ih =>
    simp only [splitNl]
    rw [if_neg (by intro hc; exact h (hc ▸ List.mem_cons_self c r))]
    rw [ih (fun hm => h (List.mem_cons_of_mem _ hm))]

theorem findTok_eq_none (pat : List Char) (segs : List (List Char))
    (h : ∀ L ∈ segs, matchLineTok pat L = none) : findTok pat segs = none := by
  induction segs with
  | nil => rfl
  | cons L rest ih =>
    simp only [findTok]
    rw [h L (List.mem_cons_self L rest)]
    exact ih (fun x hx => h x (List.mem_cons_of_mem _ hx))

/-! ### Facts about hex digit characters -/

theorem hexChar_props {d : Nat} (h : d < 16) :
    hexVal (hexChar d) = some d ∧ isPySpace (hexChar d) = false ∧
      hexChar d ≠ '\n' ∧ hexChar d ≠ '-' ∧ hexChar d ≠ '+' := by
  interval_cases d <;> exact ⟨rfl, rfl, by decide, by decide, by decide⟩

theorem hexChar_ne_zeroChar {d : Nat} (h : d < 16) (hd : d ≠ 0) : hexChar d ≠ '0' := by
  interval_cases d <;> simp_all <;> decide

theorem hexDigitsBE_ne_nil (v : Nat) : hexDigitsBE v ≠ [] := by
  unfold hexDigitsBE
  split
  · simp
  · next hv =>
    simp only [ne_eq, List.map_eq_nil_iff, List.reverse_eq_nil_iff]
    exact Nat.digits_ne_nil_iff_ne_zero.mpr hv

theorem hexDigitsBE_mem {v : Nat} {c : Char} (hc : c ∈ hexDigitsBE v) :
    ∃ d, d < 16 ∧ c = hexChar d := by
  unfold hexDigitsBE at hc
  split at hc
  · refine ⟨0, by norm_num, ?_⟩
    have : c = '0' := by simpa using hc
    rw [this]; decide
  · obtain ⟨d, hd, rfl⟩ := List.mem_map.mp hc
    exact ⟨d, Nat.digits_lt_base (by norm_num) (List.mem_reverse.mp hd), rfl⟩

theorem hexDigitsBE_not_space {v : Nat} {c : Char} (hc : c ∈ hexDigitsBE v) :
    isPySpace c = false := by
  obtain ⟨d, hd, rfl⟩ := hexDigitsBE_mem hc
  exact (hexChar_props hd).2.1

theorem hexDigitsBE_ne_newline {v : Nat} {c : Char} (hc : c ∈ hexDigitsBE v) :
    c ≠ '\n' := by
  obtain ⟨d, hd, rfl⟩ := hexDigitsBE_mem hc
  exact (hexChar_props hd).2.2.1

theorem fmtAddr8_mem {a : Nat} {c : Char} (hc : c ∈ (fmtAddr8 a).data) :
    ∃ d, d < 16 ∧ c = hexChar d := by
  unfold fmtAddr8 at hc
  rcases List.mem_append.mp hc with hrep | hdig
  · exact ⟨0, by norm_num, (List.eq_of_mem_replicate hrep)⟩
  · exact hexDigitsBE_mem hdig

/-! ### The base-16 round trip -/

theorem foldl16_reverse (L : List Nat) (acc : Nat) :
    List.foldl (fun a d => 16 * a + d) acc L.reverse
      = acc * 16 ^ L.length + Nat.ofDigits 16 L := by
  induction L generalizing acc with
  | nil => simp [Nat.ofDigits]
  | cons d T ih =>
    rw [List.reverse_cons, List.foldl_append, List.foldl_cons, List.foldl_nil, ih,
      Nat.ofDigits_cons, List.length_cons]
    ring

theorem parseHexAux_map (ds : List Nat) (h : ∀ d ∈ ds, d < 16) (acc : Nat) :
    parseHexAux (ds.map hexChar) acc
      = some (List.foldl (fun a d => 16 * a + d) acc ds) := by
  induction ds generalizing acc with
  | nil => rfl
  | cons d T ih =>
    simp only [List.map_cons, parseHexAux,
      (hexChar_props (h d (List.mem_cons_self d T))).1]
    exact ih (fun x hx => h x (List.mem_cons_of_mem _ hx)) _

theorem strip0x_of_head_ne (l : List Char) (h : l.head? ≠ some '0') : strip0x l = l := by
  match l with
  | [] => rfl
  | [a] => rfl
  | a :: b :: r =>
    simp only [strip0x]
    rw [if_neg]
    rintro ⟨rfl, -⟩
    exact h rfl

theorem parseUnsignedHex_hexDigitsBE (v : Nat) :
    parseUnsignedHex (hexDigitsBE v) = some v := by
  by_cases hv : v = 0
  · subst hv; rfl
  · unfold hexDigitsBE
    rw [if_neg hv]
    have hlast : (Nat.digits 16 v).getLast (Nat.digits_ne_nil_iff_ne_zero.mpr hv) ≠ 0 :=
      Nat.getLast_digit_ne_zero 16 hv
    have hlt : ∀ d ∈ (Nat.digits 16 v).reverse, d < 16 := fun d hd =>
      Nat.digits_lt_base (by norm_num) (List.mem_reverse.mp hd)
    have hdne : Nat.digits 16 v ≠ [] := Nat.digits_ne_nil_iff_ne_zero.mpr hv
    have hne : (Nat.digits 16 v).reverse ≠ [] := by
      simp only [ne_eq, List.reverse_eq_nil_iff]; exact hdne
    unfold parseUnsignedHex
    rw [strip0x_of_head_ne]
    · rw [if_neg (by
          simp only [List.isEmpty_iff, List.map_eq_nil_iff, List.reverse_eq_nil_iff]
          exact hdne),
        parseHexAux_map _ hlt 0, foldl16_reverse, Nat.ofDigits_digits]
      simp
    · obtain ⟨e, T, hT⟩ := List.exists_cons_of_ne_nil hne
      rw [hT, List.map_cons, List.head?_cons]
      have he_mem : e ∈ (Nat.digits 16 v).reverse := by rw [hT]; exact List.mem_cons_self e T
      have h1 : (Nat.digits 16 v).reverse.head? = (Nat.digits 16 v).getLast? :=
        List.head?_reverse _
      rw [hT, List.head?_cons, List.getLast?_eq_getLast _ hdne] at h1
      have hez : e ≠ 0 := by rw [Option.some.inj h1]; exact hlast
      have helt : e < 16 := Nat.digits_lt_base (by norm_num) (List.mem_reverse.mp he_mem)
      intro hcontra
      exact hexChar_ne_zeroChar helt hez (Option.some.inj hcontra)

theorem pyIntHex_cons (c : Char) (r : List Char) (hm : c ≠ '-') (hp : c ≠ '+') :
    pyIntHex ⟨c :: r⟩ = (parseUnsignedHex (c :: r)).map (fun n => (n : Int)) := by
  show (if c = '-' then _ else if c = '+' then _ else _) = _
  rw [if_neg hm, if_neg hp]

theorem pyIntHex_hexStr (v : Nat) : pyIntHex (hexStr v) = some (v : Int) := by
  by_cases hv : v = 0
  · subst hv; decide
  · obtain ⟨c, r, hcr⟩ := List.exists_cons_of_ne_nil (hexDigitsBE_ne_nil v)
    obtain ⟨d, hd, hcd⟩ :=
      hexDigitsBE_mem (v := v) (c := c) (by rw [hcr]; exact List.mem_cons_self c r)
    have hs : hexStr v = ⟨c :: r⟩ := by
      show (⟨hexDigitsBE v⟩ : String) = ⟨c :: r⟩
      rw [hcr]
    rw [hs, pyIntHex_cons c r (by rw [hcd]; exact (hexChar_props hd).2.2.2.1)
      (by rw [hcd]; exact (hexChar_props hd).2.2.2.2), ← hcr,
      parseUnsignedHex_hexDigitsBE]
    rfl

theorem matchLineTok_self (pat tok : List Char) (hne : tok ≠ [])
    (hns : ∀ c ∈ tok, isPySpace c = false) :
    matchLineTok pat (pat ++ tok) = some tok := by
  unfold matchLineTok
  rw [show lowerList (pat ++ tok) = lowerList pat ++ lowerList tok from List.map_append _ _ _,
    if_pos (listIsPrefix_self_append _ _), List.drop_left,
    List.takeWhile_eq_self_iff.mpr (by intro c hc; rw [hns c hc]; rfl),
    if_neg (by simp [List.isEmpty_iff, hne])]

/-- The synthetic register-read line `ADDR = VALUE` contains no newline, so
    it is a single `re.MULTILINE` segment. -/
theorem readmem_line_no_newline (a v : Nat) :
    '\n' ∉ (fmtAddr8 a ++ " = " ++ hexStr v).data := by
  rw [String.data_append, String.data_append]
  intro hmem
  rcases List.mem_append.mp hmem with h1 | h2
  · rcases List.mem_append.mp h1 with ha | hm
    · obtain ⟨d, hd, hcd⟩ := fmtAddr8_mem ha
      exact (hexChar_props hd).2.2.1 hcd.symm
    · revert hm; decide
  · exact hexDigitsBE_ne_newline h2 rfl

theorem readmem_parse_roundtrip (a v : Nat) :
    readmem_parse a (fmtAddr8 a ++ " = " ++ hexStr v) = .ok (v : Int) := by
  have hdata : (fmtAddr8 a ++ " = " ++ hexStr v).data
      = ((fmtAddr8 a).data ++ " = ".data) ++ hexDigitsBE v := by
    rw [String.data_append, String.data_append]; rfl
  unfold readmem_parse
  rw [hdata, splitNl_of_no_newline _ (hdata ▸ readmem_line_no_newline a v)]
  show (match findTok _ _ with
    | none => _ | some tok => _ : Except PyExc Int) = _
  rw [show findTok ((fmtAddr8 a).data ++ " = ".data)
        [((fmtAddr8 a).data ++ " = ".data) ++ hexDigitsBE v]
      = some (hexDigitsBE v) by
    unfold findTok
    rw [matchLineTok_self _ _ (hexDigitsBE_ne_nil v) (fun c hc => hexDigitsBE_not_space hc)]]
  show (match pyIntHex ⟨hexDigitsBE v⟩ with
    | none => _ | some w => _ : Except PyExc Int) = _
  rw [show (⟨hexDigitsBE v⟩ : String) = hexStr v from rfl, pyIntHex_hexStr]

theorem readmem_parse_no_match (a : Nat) (out : String)
    (h : ∀ L ∈ splitNl out.data, matchLineTok ((fmtAddr8 a).data ++ " = ".data) L = none) :
    readmem_parse a out = .error (.adaLinkError
      "Could not find expected memory value, are the JLink and board connected?") := by
  unfold readmem_parse
  show (match findTok ((fmtAddr8 a).data ++ " = ".data) (splitNl out.data) with
    | none => Except.error (PyExc.adaLinkError
        "Could not find expected memory value, are the JLink and board connected?")
    | some tok =>
      match pyIntHex ⟨tok⟩ with
      | none => Except.error PyExc.valueError
      | some v => Except.ok v) = _
  rw [findTok_eq_none _ _ h]

/-! ### String and counting helpers for the script builders -/

theorem string_append_left_cancel {a r s : String} (h : a ++ r = a ++ s) : r = s := by
  rw [String.ext_iff, String.data_append, String.data_append] at h
  exact String.ext_iff.mpr (List.append_cancel_left h)

theorem pyStartswith_append_of_le (q x pre : String)
    (h : pre.data.length ≤ q.data.length) :
    pyStartswith (q ++ x) pre = listIsPrefix pre.data q.data := by
  unfold pyStartswith
  rw [String.data_append, listIsPrefix_append_of_le _ _ _ h]

theorem countP_map_true {α : Type} (p : String → Bool) (f : α → String) (l : List α)
    (h : ∀ a, p (f a) = true) : List.countP p (l.map f) = l.length := by
  rw [List.countP_map]
  exact List.countP_eq_length.mpr (fun a _ => by simp [Function.comp, h a])

theorem countP_map_false {α : Type} (p : String → Bool) (f : α → String) (l : List α)
    (h : ∀ a, p (f a) = false) : List.countP p (l.map f) = 0 := by
  rw [List.countP_map]
  exact List.countP_eq_zero.mpr (fun a _ => by simp [Function.comp, h a])

/-- Generic fact about scripts of the shape
    `A ++ loads-of-src ++ verifies-of-src ++ B`: every verify command is
    preceded by the load command for the same argument text. -/
theorem verify_after_load_pairing {α : Type} (loadC verC : α → String)
    (src : List α) (A B : List String)
    (hA : ∀ s ∈ A, ∀ r : String, s ≠ "verify_image " ++ r)
    (hB : ∀ s ∈ B, ∀ r : String, s ≠ "verify_image " ++ r)
    (hL : ∀ (x : α) (r : String), loadC x ≠ "verify_image " ++ r)
    (hLV : ∀ (x : α) (r : String), verC x = "verify_image " ++ r →
      loadC x = "load_image " ++ r) :
    ∀ (i : Nat) (r : String),
      (A ++ (src.map loadC ++ (src.map verC ++ B)))[i]? = some ("verify_image " ++ r) →
      ∃ j, j < i ∧
        (A ++ (src.map loadC ++ (src.map verC ++ B)))[j]? = some ("load_image " ++ r) := by
  intro i r h
  rcases Nat.lt_or_ge i A.length with h1 | h1
  · exfalso
    rw [List.getElem?_append, if_pos h1] at h
    have hmem : ("verify_image " ++ r) ∈ A := by
      obtain ⟨hlt, heq⟩ := List.getElem?_eq_some.mp h
      exact heq ▸ List.getElem_mem hlt
    exact hA _ hmem r rfl
  · rw [List.getElem?_append_right h1] at h
    have hik : i = A.length + (i - A.length) := by omega
    rcases Nat.lt_or_ge (i - A.length) src.length with h2 | h2
    · exfalso
      rw [List.getElem?_append, if_pos (by simpa using h2), List.getElem?_map,
        List.getElem?_eq_getElem h2] at h
      simp only [Option.map_some'] at h
      exact hL _ r (Option.some.inj h)
    · rw [List.getElem?_append_right (by simpa using h2), List.length_map] at h
      rcases Nat.lt_or_ge (i - A.length - src.length) src.length with h3 | h3
      · rw [List.getElem?_append, if_pos (by simpa using h3), List.getElem?_map,
          List.getElem?_eq_getElem h3] at h
        simp only [Option.map_some'] at h
        have hl := hLV _ r (Option.some.inj h)
        refine ⟨A.length + (i - A.length - src.length), by omega, ?_⟩
        rw [List.getElem?_append_right (Nat.le_add_right _ _), Nat.add_sub_cancel_left,
          List.getElem?_append, if_pos (by simpa using h3), List.getElem?_map,
          List.getElem?_eq_getElem h3]
        simp only [Option.map_some']
        rw [hl]
      · exfalso
        rw [List.getElem?_append_right (by simpa using h3)] at h
        have hmem : ("verify_image " ++ r) ∈ B := by
          obtain ⟨hlt, heq⟩ := List.getElem?_eq_some.mp h
          exact heq ▸ List.getElem_mem hlt
        exact hB _ hmem r rfl

/-- The argument text shared by a load command and its verify command in
    the OpenOCD `program` script (file token plus address/format token),
    over the merged hex-then-bin source list. -/
def stlinkImageArg (esc abs : String → String) : String ⊕ (String × Nat) → String
  | .inl f => esc (abs f) ++ " 0 ihex"
  | .inr p => esc (abs p.1) ++ " 0x" ++ fmtAddr8 p.2 ++ " bin"

/-- The OpenOCD `program` script in `A ++ loads ++ verifies ++ B` shape. -/
theorem stlink_program_commands_canonical (esc abs : String → String)
    (hex : List String) (bin : List (String × Nat)) :
    ["init", "reset init"]
      ++ ((hex.map Sum.inl ++ bin.map Sum.inr).map
            (fun x => "load_image " ++ stlinkImageArg esc abs x)
        ++ ((hex.map Sum.inl ++ bin.map Sum.inr).map
            (fun x => "verify_image " ++ stlinkImageArg esc abs x)
          ++ ["reset run", "exit"]))
      = stlink_program_commands esc abs hex bin := by
  have e1 : ((fun x => "load_image " ++ stlinkImageArg esc abs x) ∘ Sum.inl)
      = (fun f : String => "load_image " ++ esc (abs f) ++ " 0 ihex") := by
    funext f
    exact (String.append_assoc _ _ _).symm
  have e2 : ((fun x => "load_image " ++ stlinkImageArg esc abs x) ∘ Sum.inr)
      = (fun p : String × Nat =>
          "load_image " ++ esc (abs p.1) ++ " 0x" ++ fmtAddr8 p.2 ++ " bin") := by
    funext p
    show "load_image " ++ (esc (abs p.1) ++ " 0x" ++ fmtAddr8 p.2 ++ " bin") = _
    simp only [String.append_assoc]
  have e3 : ((fun x => "verify_image " ++ stlinkImageArg esc abs x) ∘ Sum.inl)
      = (fun f : String => "verify_image " ++ esc (abs f) ++ " 0 ihex") := by
    funext f
    exact (String.append_assoc _ _ _).symm
  have e4 : ((fun x => "verify_image " ++ stlinkImageArg esc abs x) ∘ Sum.inr)
      = (fun p : String × Nat =>
          "verify_image " ++ esc (abs p.1) ++ " 0x" ++ fmtAddr8 p.2 ++ " bin") := by
    funext p
    show "verify_image " ++ (esc (abs p.1) ++ " 0x" ++ fmtAddr8 p.2 ++ " bin") = _
    simp only [String.append_assoc]
  unfold stlink_program_commands
  rw [List.map_append, List.map_append, List.map_map, List.map_map, List.map_map,
    List.map_map, e1, e2, e3, e4]
  simp [List.append_assoc]

/-! ## Claim theorems -/

/-- C3: the script built by the OpenOCD `program` bodies has the fixed
    order reset/init, loads of every hex file in request order, loads of
    every bin file in request order, verifies of the hex files in the same
    order, verifies of the bin files in the same order, reset-and-run,
    quit; and every verify command is preceded (strictly earlier in the
    script) by the load command for the same file and address, so no
    verify precedes its load and every verify refers to a file this same
    script loaded. -/
theorem c3_stlink_program_order (esc abs : String → String) (hex_files : List String)
    (bin_files : List (String × Nat)) :
    (stlink_program_commands esc abs hex_files bin_files
      = ["init", "reset init"]
        ++ hex_files.map (fun f => "load_image " ++ esc (abs f) ++ " 0 ihex")
        ++ bin_files.map (fun p =>
            "load_image " ++ esc (abs p.1) ++ " 0x" ++ fmtAddr8 p.2 ++ " bin")
        ++ hex_files.map (fun f => "verify_image " ++ esc (abs f) ++ " 0 ihex")
        ++ bin_files.map (fun p =>
            "verify_image " ++ esc (abs p.1) ++ " 0x" ++ fmtAddr8 p.2 ++ " bin")
        ++ ["reset run", "exit"])
    ∧ ∀ (i : Nat) (r : String),
        (stlink_program_commands esc abs hex_files bin_files)[i]?
          = some ("verify_image " ++ r) →
        ∃ j, j < i ∧
          (stlink_program_commands esc abs hex_files bin_files)[j]?
            = some ("load_image " ++ r) := by
  constructor
  · rfl
  · rw [← stlink_program_commands_canonical esc abs hex_files bin_files]
    refine verify_after_load_pairing _ _ _ _ _ ?_ ?_ ?_ ?_
    · intro s hs r
      simp only [List.mem_cons, List.not_mem_nil, or_false] at hs
      rcases hs with rfl | rfl
      · exact string_ne_append (show ("init" : String).data = 'i' :: "nit".data from rfl)
          (show ("verify_image " : String).data = 'v' :: "erify_image ".data from rfl)
          (by decide) r
      · exact string_ne_append
          (show ("reset init" : String).data = 'r' :: "eset init".data from rfl)
          (show ("verify_image " : String).data = 'v' :: "erify_image ".data from rfl)
          (by decide) r
    · intro s hs r
      simp only [List.mem_cons, List.not_mem_nil, or_false] at hs
      rcases hs with rfl | rfl
      · exact string_ne_append
          (show ("reset run" : String).data = 'r' :: "eset run".data from rfl)
          (show ("verify_image " : String).data = 'v' :: "erify_image ".data from rfl)
          (by decide) r
      · exact string_ne_append (show ("exit" : String).data = 'e' :: "xit".data from rfl)
          (show ("verify_image " : String).data = 'v' :: "erify_image ".data from rfl)
          (by decide) r
    · intro x r
      exact string_append_ne_append
        (show ("load_image " : String).data = 'l' :: "oad_image ".data from rfl)
        (show ("verify_image " : String).data = 'v' :: "erify_image ".data from rfl)
        (by decide) _ _
    · intro x r hv
      rw [string_append_left_cancel hv]

/-- C3 witness: for the request `hex=[a.hex]`, `bin=[(b.bin, 0x2000)]`,
    the verify command at index 4 has its load command strictly earlier. -/
theorem c3_stlink_program_order_witness :
    ∃ j, j < 4 ∧
      (stlink_program_commands id id ["a.hex"] [("b.bin", 8192)])[j]?
        = some ("load_image " ++ "a.hex 0 ihex") :=
  (c3_stlink_program_order id id ["a.hex"] [("b.bin", 8192)]).2 4 "a.hex 0 ihex" (by decide)

theorem pyStartswith_eq_of_lit (s pre q : String) (rest : List Char)
    (hs : s.data = q.data ++ rest) (hle : pre.data.length ≤ q.data.length) :
    pyStartswith s pre = listIsPrefix pre.data q.data := by
  unfold pyStartswith
  rw [hs, listIsPrefix_append_of_le _ _ _ hle]

/-- C2 counterexample: for one hex file and no bin files (so N+M = 1) the
    JLink `program` script contains no verify command at all, refuting the
    claim's "every Programmer variant" with N+M verify commands. -/
theorem c2_counterexample_jlink_no_verify_commands :
    (jlink_program_commands id ["a.hex"] []).countP (fun c => pyStartswith c "verify") = 0
    ∧ (["a.hex"] : List String).length + ([] : List (String × Nat)).length = 1 := by
  decide

/-- C2 amended: the OpenOCD `program` script contains exactly N+M load
    commands and exactly N+M verify commands; the JLink `program` script
    contains exactly N+M load commands and zero verify commands. -/
theorem c2_amended_load_verify_counts (esc abs : String → String)
    (hex_files : List String) (bin_files : List (String × Nat)) :
    ((stlink_program_commands esc abs hex_files bin_files).countP
        (fun c => pyStartswith c "load") = hex_files.length + bin_files.length)
    ∧ ((stlink_program_commands esc abs hex_files bin_files).countP
        (fun c => pyStartswith c "verify") = hex_files.length + bin_files.length)
    ∧ ((jlink_program_commands abs hex_files bin_files).countP
        (fun c => pyStartswith c "load") = hex_files.length + bin_files.length)
    ∧ ((jlink_program_commands abs hex_files bin_files).countP
        (fun c => pyStartswith c "verify") = 0) := by
  have hexLoad : ∀ (pre : String), pre.data.length ≤ 11 → ∀ f : String,
      pyStartswith ("load_image " ++ esc (abs f) ++ " 0 ihex") pre
        = listIsPrefix pre.data "load_image ".data := fun pre hle f =>
    pyStartswith_eq_of_lit _ pre "load_image " ((esc (abs f)).data ++ " 0 ihex".data)
      (by simp [String.data_append, List.append_assoc]) hle
  have binLoad : ∀ (pre : String), pre.data.length ≤ 11 → ∀ p : String × Nat,
      pyStartswith ("load_image " ++ esc (abs p.1) ++ " 0x" ++ fmtAddr8 p.2 ++ " bin") pre
        = listIsPrefix pre.data "load_image ".data := fun pre hle p =>
    pyStartswith_eq_of_lit _ pre "load_image "
      ((esc (abs p.1)).data ++ (" 0x".data ++ ((fmtAddr8 p.2).data ++ " bin".data)))
      (by simp [String.data_append, List.append_assoc]) hle
  have hexVer : ∀ (pre : String), pre.data.length ≤ 13 → ∀ f : String,
      pyStartswith ("verify_image " ++ esc (abs f) ++ " 0 ihex") pre
        = listIsPrefix pre.data "verify_image ".data := fun pre hle f =>
    pyStartswith_eq_of_lit _ pre "verify_image " ((esc (abs f)).data ++ " 0 ihex".data)
      (by simp [String.data_append, List.append_assoc]) hle
  have binVer : ∀ (pre : String), pre.data.length ≤ 13 → ∀ p : String × Nat,
      pyStartswith ("verify_image " ++ esc (abs p.1) ++ " 0x" ++ fmtAddr8 p.2 ++ " bin") pre
        = listIsPrefix pre.data "verify_image ".data := fun pre hle p =>
    pyStartswith_eq_of_lit _ pre "verify_image "
      ((esc (abs p.1)).data ++ (" 0x".data ++ ((fmtAddr8 p.2).data ++ " bin".data)))
      (by simp [String.data_append, List.append_assoc]) hle
  have jHex : ∀ (pre : String), pre.data.length ≤ 10 → ∀ f : String,
      pyStartswith ("loadfile \"" ++ abs f ++ "\"") pre
        = listIsPrefix pre.data "loadfile \"".data := fun pre hle f =>
    pyStartswith_eq_of_lit _ pre "loadfile \"" ((abs f).data ++ "\"".data)
      (by simp [String.data_append, List.append_assoc]) hle
  have jBin : ∀ (pre : String), pre.data.length ≤ 9 → ∀ p : String × Nat,
      pyStartswith ("loadbin \"" ++ abs p.1 ++ "\" 0x" ++ fmtAddr8 p.2) pre
        = listIsPrefix pre.data "loadbin \"".data := fun pre hle p =>
    pyStartswith_eq_of_lit _ pre "loadbin \""
      ((abs p.1).data ++ ("\" 0x".data ++ (fmtAddr8 p.2).data))
      (by simp [String.data_append, List.append_assoc]) hle
  refine ⟨?_, ?_, ?_, ?_⟩
  · unfold stlink_program_commands
    simp only [List.countP_append]
    rw [countP_map_true _ _ _ (fun f => by rw [hexLoad "load" (by decide) f]; decide),
      countP_map_true _ _ _ (fun p => by rw [binLoad "load" (by decide) p]; decide),
      countP_map_false _ _ _ (fun f => by rw [hexVer "load" (by decide) f]; decide),
      countP_map_false _ _ _ (fun p => by rw [binVer "load" (by decide) p]; decide),
      show List.countP (fun c => pyStartswith c "load") ["init", "reset init"] = 0
        from by decide,
      show List.countP (fun c => pyStartswith c "load") ["reset run", "exit"] = 0
        from by decide]
    omega
  · unfold stlink_program_commands
    simp only [List.countP_append]
    rw [countP_map_false _ _ _ (fun f => by rw [hexLoad "verify" (by decide) f]; decide),
      countP_map_false _ _ _ (fun p => by rw [binLoad "verify" (by decide) p]; decide),
      countP_map_true _ _ _ (fun f => by rw [hexVer "verify" (by decide) f]; decide),
      countP_map_true _ _ _ (fun p => by rw [binVer "verify" (by decide) p]; decide),
      show List.countP (fun c => pyStartswith c "verify") ["init", "reset init"] = 0
        from by decide,
      show List.countP (fun c => pyStartswith c "verify") ["reset run", "exit"] = 0
        from by decide]
    omega
  · unfold jlink_program_commands
    simp only [List.countP_append]
    rw [countP_map_true _ _ _ (fun f => by rw [jHex "load" (by decide) f]; decide),
      countP_map_true _ _ _ (fun p => by rw [jBin "load" (by decide) p]; decide),
      show List.countP (fun c => pyStartswith c "load") ["r"] = 0 from by decide,
      show List.countP (fun c => pyStartswith c "load") ["r", "g", "q"] = 0 from by decide]
    omega
  · unfold jlink_program_commands
    simp only [List.countP_append]
    rw [countP_map_false _ _ _ (fun f => by rw [jHex "verify" (by decide) f]; decide),
      countP_map_false _ _ _ (fun p => by rw [jBin "verify" (by decide) p]; decide),
      show List.countP (fun c => pyStartswith c "verify") ["r"] = 0 from by decide,
      show List.countP (fun c => pyStartswith c "verify") ["r", "g", "q"] = 0 from by decide]

/-! ### Concrete formatter evaluations (shared by witnesses) -/

theorem fmtAddr8_serial : fmtAddr8 8429582 = "0080A00E" := by
  unfold fmtAddr8 hexDigitsBE
  rw [if_neg (by norm_num),
    show Nat.digits 16 8429582 = [14, 0, 0, 10, 0, 8] from by norm_num]
  decide

theorem hexStr_16170 : hexStr 16170 = "3F2A" := by
  unfold hexStr hexDigitsBE
  rw [if_neg (by norm_num), show Nat.digits 16 16170 = [10, 2, 15, 3] from by norm_num]
  decide

theorem hexStr_511 : hexStr 511 = "1FF" := by
  unfold hexStr hexDigitsBE
  rw [if_neg (by norm_num), show Nat.digits 16 511 = [15, 15, 1] from by norm_num]
  decide

/-- C1: on Python 3 the verification step of the OpenOCD `program` bodies
    (`verified = len(filter(...))`) raises `TypeError` for every input —
    a `filter` object has no `len` — so `program` neither succeeds nor
    raises the classified verification error, even when the output has
    exactly N+M lines starting with `verified ` (as the second conjunct
    shows for N+M = 1). -/
theorem c1_verify_check_always_typeError :
    (∀ (hex_files : List String) (bin_files : List (String × Nat)) (output : String),
      stlink_verify_check hex_files bin_files output = .error PyExc.typeError)
    ∧ countVerifiedLines "verified 1234 bytes" = 1 :=
  ⟨fun _ _ _ => rfl, by decide⟩

/-- C5: formatting an address/value pair into a synthetic `ADDR = VALUE`
    line and parsing it back through `_readmem`'s regex recovers the value
    exactly, for every width; and on an output where no line matches the
    pattern, the read fails with the parse-error `AdaLinkError` and in
    particular never returns 0. -/
theorem c5_readmem_roundtrip_and_parse_error :
    (∀ a v : Nat,
      readmem8 a (fmtAddr8 a ++ " = " ++ hexStr v) = .ok (v : Int)
      ∧ readmem16 a (fmtAddr8 a ++ " = " ++ hexStr v) = .ok (v : Int)
      ∧ readmem32 a (fmtAddr8 a ++ " = " ++ hexStr v) = .ok (v : Int))
    ∧ (∀ (a : Nat) (out : String),
        (∀ L ∈ splitNl out.data,
          matchLineTok ((fmtAddr8 a).data ++ " = ".data) L = none) →
        readmem_parse a out = .error (.adaLinkError
          "Could not find expected memory value, are the JLink and board connected?")
        ∧ readmem_parse a out ≠ .ok 0) := by
  constructor
  · intro a v
    exact ⟨readmem_parse_roundtrip a v, readmem_parse_roundtrip a v,
      readmem_parse_roundtrip a v⟩
  · intro a out h
    have he := readmem_parse_no_match a out h
    refine ⟨he, ?_⟩
    rw [he]
    intro hc
    exact Except.noConfusion hc

/-- C5 witness: `read(width=16, 0x0080A00E)` against the line
    `0080A00E = 3F2A` yields `0x3F2A`; against an output with no matching
    line it yields the parse error. -/
theorem c5_readmem_roundtrip_and_parse_error_witness :
    readmem16 8429582 "0080A00E = 3F2A" = .ok 16170
    ∧ readmem_parse 8429582 "nothing here" = .error (.adaLinkError
        "Could not find expected memory value, are the JLink and board connected?") := by
  constructor
  · have h := (c5_readmem_roundtrip_and_parse_error.1 8429582 16170).2.1
    rw [fmtAddr8_serial, hexStr_16170,
      show ("0080A00E" ++ " = " ++ "3F2A" : String) = "0080A00E = 3F2A" from by decide] at h
    exact h
  · exact (c5_readmem_roundtrip_and_parse_error.2 8429582 "nothing here" (by
      rw [fmtAddr8_serial]
      decide)).1

/-- C9 counterexample: a `mem8` read whose output line carries the 9-bit
    value `0x1FF` returns 511 — not an error and not truncated — refuting
    "the returned value is strictly less than 2^W". -/
theorem c9_counterexample_width_not_enforced :
    readmem8 8429582 "0080A00E = 1FF" = .ok 511 ∧ ¬((511 : Int) < 2 ^ 8) := by
  constructor
  · have h := readmem_parse_roundtrip 8429582 511
    rw [fmtAddr8_serial, hexStr_511,
      show ("0080A00E" ++ " = " ++ "1FF" : String) = "0080A00E = 1FF" from by decide] at h
    exact h
  · norm_num

/-- C9 amended: the value returned by a memory read is exactly the integer
    parsed from the tool's output token, with no width constraint: a value
    of 2^W or more in the tool output is silently returned as-is for each
    width W, neither rejected as an error nor truncated. -/
theorem c9_amended_value_unconstrained (a v : Nat) :
    (2 ^ 8 ≤ v → readmem8 a (fmtAddr8 a ++ " = " ++ hexStr v) = .ok (v : Int))
    ∧ (2 ^ 16 ≤ v → readmem16 a (fmtAddr8 a ++ " = " ++ hexStr v) = .ok (v : Int))
    ∧ (2 ^ 32 ≤ v → readmem32 a (fmtAddr8 a ++ " = " ++ hexStr v) = .ok (v : Int)) :=
  ⟨fun _ => readmem_parse_roundtrip a v, fun _ => readmem_parse_roundtrip a v,
    fun _ => readmem_parse_roundtrip a v⟩

/-- C9 amended witness: the 9-bit value 0x1FF is returned as-is by an
    8-bit read. -/
theorem c9_amended_value_unconstrained_witness :
    2 ^ 8 ≤ 511 ∧ readmem8 8429582 "0080A00E = 1FF" = .ok 511 := by
  refine ⟨by norm_num, ?_⟩
  have h := (c9_amended_value_unconstrained 8429582 511).1 (by norm_num)
  rw [fmtAddr8_serial, hexStr_511,
    show ("0080A00E" ++ " = " ++ "1FF" : String) = "0080A00E = 1FF" from by decide] at h
  exact h

theorem string_head2_append {a : String} {c : Char} {la : List Char}
    (ha : a.data = c :: la) (s t : String) :
    ((a ++ s) ++ t).data = c :: ((la ++ s.data) ++ t.data) := by
  rw [String.data_append, String.data_append, ha, List.cons_append, List.cons_append]

/-- C4 counterexample: on empty connection-check output the found-device
    token is absent, yet the classification is the `ProtocolError` message
    (voltage token structurally absent), not a `NotConnected` failure as
    the claim's first clause demands. -/
theorem c4_counterexample_empty_output :
    connect_classify "Cortex-M0 r0p1, Little endian" "samd21" ""
        = .error (.adaLinkError "JLink output lacks voltage information")
    ∧ pyIn ("Found " ++ "Cortex-M0 r0p1, Little endian") "" = false
    ∧ connect_classify "Cortex-M0 r0p1, Little endian" "samd21" ""
        ≠ .error (.adaLinkError "Could not find a JLink programmer, is it connected?")
    ∧ connect_classify "Cortex-M0 r0p1, Little endian" "samd21" ""
        ≠ .error (.adaLinkError "Could not find samd21, is it connected?") := by
  decide

/-- C4 amended: the classification follows the code's check order: output
    containing the probe-failure token `FAILED` is `NotConnected` (probe);
    otherwise a structurally absent voltage token is the `ProtocolError`
    message; otherwise a reported voltage below 1.0 V is `LowVoltage` and
    never either `NotConnected` message; otherwise the check succeeds iff
    the found-device token is present (absence becoming the caller's
    `NotConnected`). -/
theorem c4_amended_connection_classification (connected name out : String) :
    (pyIn "FAILED" out = true →
      connect_classify connected name out
        = .error (.adaLinkError "Could not find a JLink programmer, is it connected?"))
    ∧ (pyIn "FAILED" out = false → findVolt out.data = none →
      connect_classify connected name out
        = .error (.adaLinkError "JLink output lacks voltage information"))
    ∧ (∀ (tok : List Char) (v : ℚ), pyIn "FAILED" out = false →
        findVolt out.data = some tok → pyFloatDigits tok = some v → v < 1 →
        connect_classify connected name out
          = .error (.adaLinkError ("JLink reference voltage is "
              ++ (⟨tok⟩ : String) ++ "V, it the chip powered?"))
        ∧ ∀ m : String, connect_classify connected name out
            ≠ .error (.adaLinkError ("Could not find " ++ m ++ ", is it connected?")))
    ∧ (∀ (tok : List Char) (v : ℚ), pyIn "FAILED" out = false →
        findVolt out.data = some tok → pyFloatDigits tok = some v → ¬(v < 1) →
        (connect_classify connected name out = .ok ()
          ↔ pyIn ("Found " ++ connected) out = true)) := by
  refine ⟨?_, ?_, ?_, ?_⟩
  · intro h
    simp [connect_classify, is_connected, h]
  · intro h1 h2
    simp [connect_classify, is_connected, h1, h2]
  · intro tok v h1 h2 h3 h4
    have hres : connect_classify connected name out
        = .error (.adaLinkError ("JLink reference voltage is "
            ++ (⟨tok⟩ : String) ++ "V, it the chip powered?")) := by
      simp [connect_classify, is_connected, h1, h2, h3, h4]
    refine ⟨hres, ?_⟩
    intro m hc
    rw [hres] at hc
    have h5 := PyExc.adaLinkError.inj (Except.error.inj hc)
    rw [String.ext_iff,
      string_head2_append (show ("JLink reference voltage is " : String).data
        = 'J' :: "Link reference voltage is ".data from rfl) (⟨tok⟩ : String)
        "V, it the chip powered?",
      string_head2_append (show ("Could not find " : String).data
        = 'C' :: "ould not find ".data from rfl) m ", is it connected?"] at h5
    exact absurd (List.head_eq_of_cons_eq h5) (by decide)
  · intro tok v h1 h2 h3 h4
    have hok : is_connected connected out = .ok (pyIn ("Found " ++ connected) out) := by
      simp [is_connected, h1, h2, h3, h4]
    rw [connect_classify, hok]
    cases hfound : pyIn ("Found " ++ connected) out <;> simp

/-- C4 witness: output with the found-token and `VTref=0.5V` is classified
    as the low-voltage failure. -/
theorem c4_amended_connection_classification_witness :
    connect_classify "Cortex-M0 r0p1, Little endian" "samd21"
        "Found Cortex-M0 r0p1, Little endian VTref=0.5V"
      = .error (.adaLinkError "JLink reference voltage is 0.5V, it the chip powered?") := by
  have hfloat : pyFloatDigits "0.5".data = some (1 / 2 : ℚ) := by
    show pyFloatDigits ['0', '.', '5'] = some (1 / 2 : ℚ)
    unfold pyFloatDigits
    rw [if_pos (by decide)]
    norm_num [decVal, List.takeWhile, List.drop,
      show (decide (('0' : Char) = '.')) = false from rfl,
      show ('5' : Char).toNat = 53 from rfl, show ('0' : Char).toNat = 48 from rfl]
  have h := ((c4_amended_connection_classification "Cortex-M0 r0p1, Little endian" "samd21"
      "Found Cortex-M0 r0p1, Little endian VTref=0.5V").2.2.1
    "0.5".data (1 / 2) (by decide) (by decide) hfloat (by norm_num)).1
  rw [show ("JLink reference voltage is " ++ (⟨"0.5".data⟩ : String)
      ++ "V, it the chip powered?" : String)
    = "JLink reference voltage is 0.5V, it the chip powered?" from by decide] at h
  exact h

/-- C6: when the wall-clock bound expires, `run_filename` neither
    terminates the child nor raises the classified timeout `AdaLinkError`:
    `subprocess.TimeoutExpired` propagates uncaught, because the source's
    `except TimeoutError:` clause does not match it (`TimeoutExpired` is
    not a subclass of the builtin `TimeoutError`), and
    `Popen.communicate` does not kill the child on timeout.  Disabling the
    timeout is the distinct value `None`, under which the call returns the
    output. -/
theorem c6_timeout_divergence :
    (∀ (t dur : ℚ) (out : String), t < dur →
      run_filename (some t) dur out = (.error .timeoutExpired, false))
    ∧ (∀ (dur : ℚ) (out : String), run_filename none dur out = (.ok out, true))
    ∧ PyClass.isSubclassOf .timeoutExpiredCls .timeoutErrorCls = false := by
  refine ⟨?_, fun dur out => rfl, by decide⟩
  intro t dur out h
  rw [run_filename,
    show communicate (some t) dur out = (.error .timeoutExpired, false) from by
      rw [communicate, if_neg (not_le.mpr h)]]
  rfl

/-- C6 witness: a 61-second child under a 60-second timeout. -/
theorem c6_timeout_divergence_witness :
    run_filename (some 60) 61 "" = (.error .timeoutExpired, false) :=
  c6_timeout_divergence.1 60 61 "" (by norm_num)

/-- C7 counterexample: a classified failure reaching `main` is printed,
    but the process exit status is 0, not non-zero as the claim states. -/
theorem c7_counterexample_exit_status_zero :
    main_handle (.error (.adaLinkError "Could not find samd21, is it connected?"))
      = (["Could not find samd21, is it connected?"], 0) := by
  decide

/-- C7 amended: on a classified failure (`AdaLinkError`) the entry point
    prints exactly the error message and performs no further operations,
    but exits with status 0; only an unclassified exception yields a
    non-zero exit. -/
theorem c7_amended_print_error_and_exit_zero :
    (∀ msg : String, main_handle (.error (.adaLinkError msg)) = ([msg], 0))
    ∧ main_handle (.error .timeoutExpired) = ([], 1)
    ∧ main_handle (.ok ()) = ([], 0) :=
  ⟨fun _ => rfl, rfl, rfl⟩

theorem listIsPrefix_refl (p : List Char) : listIsPrefix p p = true := by
  induction p with
  | nil => rfl
  | cons a p ih => simp [listIsPrefix, ih]

theorem takeWhile_ne_quote_append (l t : List Char) (h : '\"' ∉ l) :
    List.takeWhile (fun c => c ≠ '\"') (l ++ '\"' :: t) = l := by
  induction l with
  | nil => rfl
  | cons c r ih =>
    have hc : c ≠ '\"' := fun e => h (e ▸ List.mem_cons_self c r)
    rw [List.cons_append, List.takeWhile_cons, if_pos (by simp [hc]),
      ih (fun hm => h (List.mem_cons_of_mem _ hm))]

/-- C8 counterexample: a hex path containing the JLink script quote
    character is embedded unescaped; the built `loadfile` command's quoted
    argument is then `evil`, not the requested file `evil".hex`, and the
    path is not rejected. -/
theorem c8_counterexample_quote_corrupts_jlink_script :
    (jlink_program_commands id ["evil\".hex"] [])[1]? = some "loadfile \"evil\".hex\""
    ∧ loadfileArg "loadfile \"evil\".hex\"" = some "evil"
    ∧ ("evil" : String) ≠ "evil\".hex" := by
  decide

/-- C8 amended: the JLink builder wraps the absolute path in double quotes
    with no escaping: in every request (hex and bin files together), every
    load command — `loadfile` for a hex file, `loadbin` for a bin file —
    whose path's absolute form is free of the double-quote character still
    refers to exactly the requested file (the tool's quoted-argument parse
    recovers the embedded path); a path containing the quote character
    corrupts the command and is not rejected. -/
theorem c8_amended_quote_free_paths_survive (abs : String → String)
    (hex_files : List String) (bin_files : List (String × Nat)) :
    (∀ (i : Nat) (f : String), hex_files[i]? = some f → '\"' ∉ (abs f).data →
      (jlink_program_commands abs hex_files bin_files)[i + 1]?
          = some ("loadfile \"" ++ abs f ++ "\"")
      ∧ loadfileArg ("loadfile \"" ++ abs f ++ "\"") = some (abs f))
    ∧ (∀ (i : Nat) (f : String) (addr : Nat), bin_files[i]? = some (f, addr) →
        '\"' ∉ (abs f).data →
      (jlink_program_commands abs hex_files bin_files)[hex_files.length + 1 + i]?
          = some ("loadbin \"" ++ abs f ++ "\" 0x" ++ fmtAddr8 addr)
      ∧ loadbinArg ("loadbin \"" ++ abs f ++ "\" 0x" ++ fmtAddr8 addr)
          = some (abs f)) := by
  constructor
  · intro i f hf hq
    obtain ⟨hlt, hval⟩ := List.getElem?_eq_some.mp hf
    constructor
    · unfold jlink_program_commands
      simp only [List.append_assoc]
      rw [List.singleton_append, List.getElem?_cons_succ, List.getElem?_append,
        if_pos (by simpa using hlt), List.getElem?_map, List.getElem?_eq_getElem hlt]
      simp only [Option.map_some', hval]
    · unfold loadfileArg
      rw [if_pos]
      · show (some (⟨(("loadfile \"" ++ abs f ++ "\"").data.drop 10).takeWhile
            (fun c => c ≠ '\"')⟩ : String) : Option String) = some (abs f)
        have hd : ("loadfile \"" ++ abs f ++ "\"").data
            = "loadfile \"".data ++ ((abs f).data ++ '\"' :: []) := by
          simp [String.data_append, List.append_assoc]
        rw [hd, show (10 : Nat) = ("loadfile \"".data).length from rfl, List.drop_left,
          takeWhile_ne_quote_append _ _ hq]
      · rw [pyStartswith_eq_of_lit _ "loadfile \"" "loadfile \""
          ((abs f).data ++ "\"".data) (by simp [String.data_append, List.append_assoc])
          (le_refl _)]
        exact listIsPrefix_refl _
  · intro i f addr hf hq
    obtain ⟨hlt, hval⟩ := List.getElem?_eq_some.mp hf
    constructor
    · unfold jlink_program_commands
      simp only [List.append_assoc]
      rw [show hex_files.length + 1 + i = (hex_files.length + i) + 1 from by omega,
        List.singleton_append, List.getElem?_cons_succ,
        List.getElem?_append_right (by simp),
        List.length_map, Nat.add_sub_cancel_left, List.getElem?_append,
        if_pos (by simpa using hlt), List.getElem?_map, List.getElem?_eq_getElem hlt]
      simp only [Option.map_some', hval]
    · unfold loadbinArg
      rw [if_pos]
      · show (some (⟨(("loadbin \"" ++ abs f ++ "\" 0x" ++ fmtAddr8 addr).data.drop 9).takeWhile
            (fun c => c ≠ '\"')⟩ : String) : Option String) = some (abs f)
        have hd : ("loadbin \"" ++ abs f ++ "\" 0x" ++ fmtAddr8 addr).data
            = "loadbin \"".data
              ++ ((abs f).data ++ '\"' :: (" 0x".data ++ (fmtAddr8 addr).data)) := by
          simp [String.data_append, List.append_assoc]
        rw [hd, show (9 : Nat) = ("loadbin \"".data).length from rfl, List.drop_left,
          takeWhile_ne_quote_append _ _ hq]
      · rw [pyStartswith_eq_of_lit _ "loadbin \"" "loadbin \""
          ((abs f).data ++ ("\" 0x".data ++ (fmtAddr8 addr).data))
          (by simp [String.data_append, List.append_assoc]) (le_refl _)]
        exact listIsPrefix_refl _

/-- C8 witness: in a mixed request, a quote-free hex path round-trips
    through its `loadfile` command and a quote-free bin path round-trips
    through its `loadbin` command. -/
theorem c8_amended_quote_free_paths_survive_witness :
    ((jlink_program_commands id ["good.hex"] [("data.bin", 8192)])[1]?
        = some ("loadfile \"" ++ id "good.hex" ++ "\"")
      ∧ loadfileArg ("loadfile \"" ++ id "good.hex" ++ "\"") = some (id "good.hex"))
    ∧ ((jlink_program_commands id ["good.hex"] [("data.bin", 8192)])[2]?
        = some ("loadbin \"" ++ id "data.bin" ++ "\" 0x" ++ fmtAddr8 8192)
      ∧ loadbinArg ("loadbin \"" ++ id "data.bin" ++ "\" 0x" ++ fmtAddr8 8192)
          = some (id "data.bin")) :=
  ⟨(c8_amended_quote_free_paths_survive id ["good.hex"] [("data.bin", 8192)]).1
      0 "good.hex" (by decide) (by decide),
    (c8_amended_quote_free_paths_survive id ["good.hex"] [("data.bin", 8192)]).2
      0 "data.bin" 8192 (by decide) (by decide)⟩

/-- C10: when more than one read-width option is supplied, `_callback`
    raises the ambiguity error and performs no memory read — but only
    after the connect check, the wipe (if requested), the program step (if
    files were given) and the info report have already executed: the trace
    contains exactly those operations, in that order, and no read
    operation. -/
theorem c10_ambiguous_read_checked_after_side_effects (name : String) (wipe : Bool)
    (hex_files : List String) (bin_files : List (String × Nat)) (info : Bool)
    (read8 read16 read32 : Option Nat)
    (h : 1 < ([read8, read16, read32].filterMap id).length) :
    callback_trace name true wipe hex_files bin_files info read8 read16 read32
      = ([Step.connectCheck]
          ++ (if wipe then [Step.wipeOp] else [])
          ++ (if 0 < hex_files.length ∨ 0 < bin_files.length then
                [Step.programOp hex_files bin_files] else [])
          ++ (if info then [Step.infoOp] else []),
        .error (.adaLinkError "Only one read memory command can be specified at a time."))
    ∧ ∀ s ∈ (callback_trace name true wipe hex_files bin_files info read8 read16 read32).1,
        s.isRead = false := by
  have hres : callback_trace name true wipe hex_files bin_files info read8 read16 read32
      = ([Step.connectCheck]
          ++ (if wipe then [Step.wipeOp] else [])
          ++ (if 0 < hex_files.length ∨ 0 < bin_files.length then
                [Step.programOp hex_files bin_files] else [])
          ++ (if info then [Step.infoOp] else []),
        .error (.adaLinkError
          "Only one read memory command can be specified at a time.")) := by
    unfold callback_trace
    simp only [Bool.not_true, Bool.false_eq_true, if_false, if_pos h]
  refine ⟨hres, ?_⟩
  intro s hs
  rw [show (callback_trace name true wipe hex_files bin_files info read8 read16 read32).1
      = [Step.connectCheck]
          ++ (if wipe then [Step.wipeOp] else [])
          ++ (if 0 < hex_files.length ∨ 0 < bin_files.length then
                [Step.programOp hex_files bin_files] else [])
          ++ (if info then [Step.infoOp] else [])
    from congrArg Prod.fst hres] at hs
  rcases List.mem_append.mp hs with hs | hs
  · rcases List.mem_append.mp hs with hs | hs
    · rcases List.mem_append.mp hs with hs | hs
      · simp only [List.mem_singleton] at hs
        subst hs; rfl
      · split at hs
        · simp only [List.mem_singleton] at hs
          subst hs; rfl
        · simp at hs
    · split at hs
      · simp only [List.mem_singleton] at hs
        subst hs; rfl
      · simp at hs
  · split at hs
    · simp only [List.mem_singleton] at hs
      subst hs; rfl
    · simp at hs

/-- C10 witness: with wipe, one hex file, info, and both the 8-bit and
    16-bit read options supplied, the wipe, program and info operations
    all execute before the ambiguity error, and no read happens. -/
theorem c10_ambiguous_read_checked_after_side_effects_witness :
    callback_trace "samd21" true true ["a.hex"] [] true (some 1) (some 2) none
      = ([Step.connectCheck, Step.wipeOp, Step.programOp ["a.hex"] [], Step.infoOp],
        .error (.adaLinkError
          "Only one read memory command can be specified at a time.")) :=
  ((c10_ambiguous_read_checked_after_side_effects "samd21" true ["a.hex"] [] true
      (some 1) (some 2) none (by decide)).1).trans (by decide)

end Adalink
